import Mathlib

/-!
Verification of the migration-script compilation core of SFDX-Data-Move-Utility,
source file src/modules/models/common_models/ISfdxCommand.ts.

The embedding is shallow: the TypeScript classes Script, ScriptOrg, ScriptObject,
OrgInfo and SFieldDescribe become Lean structures, and the mutating methods
Script.setupAsync, ScriptOrg.setupAsync and ScriptObject.setup become pure
functions from the old state to an Except value (thrown
CommandInitializationError values become error results).  The external
soql-parser-js library (parseQuery, composeQuery) is out of scope for the
source and is represented by oracle parameters: parse, a partial function from
query text to the parsed AST, and compose, a total function from AST to text.
Helper code of the repository that is not part of the provided sources
(the statics module, CommonUtils, the messages module) is modelled from the
spec where needed; each such definition carries a doc comment saying so.
-/

/-- OPERATION enum. Modelled from the spec: the operation enum of the statics
module (not part of the provided sources) with the members named by the spec:
Insert, Update, Upsert, Delete, Readonly.  The TypeScript enum is numeric
(the source relies on its reverse mapping in strOperation), so under the loose
equality used by the source an enum member is never equal to a string. -/
inductive OPERATION where
  | Insert
  | Update
  | Upsert
  | Delete
  | Readonly
deriving DecidableEq, Repr

/-- Runtime value held by the operation property of a raw object entry.  The
deserialized script may carry either the enum value or its textual name; the
undef constructor models the undefined value produced when an unknown name is
looked up in the enum object. -/
inductive OperationValue where
  | str (s : String)
  | op (o : OPERATION)
  | undef
deriving DecidableEq, Repr

/-- Enum lookup, OPERATION of a textual name.  Modelled from the spec: text is
mapped to the enum member of the same name, unknown text yields undefined. -/
def strToOperation : String → Option OPERATION
  | "Insert" => some OPERATION.Insert
  | "Update" => some OPERATION.Update
  | "Upsert" => some OPERATION.Upsert
  | "Delete" => some OPERATION.Delete
  | "Readonly" => some OPERATION.Readonly
  | _ => none

/-- Lines 421-423 of the source: when the operation arrived as text it is
replaced by the result of the enum lookup. -/
def fixOperationValue : OperationValue → OperationValue
  | OperationValue.str s =>
      match strToOperation s with
      | some v => OperationValue.op v
      | none => OperationValue.undef
  | v => v

/-- Field node of the external soql-parser-js AST, as consumed by the source
through the cast to SOQLField and its field property. -/
structure SOQLField where
  field : String
deriving DecidableEq, Repr

/-- External library helper getComposedField applied to a plain field name:
it yields the field node carrying that name. -/
def getComposedField (name : String) : SOQLField := SOQLField.mk name

/-- Single comparison predicate of a where clause. -/
structure Predicate where
  field : String
  operator : String
  values : List String
  valueType : String
deriving DecidableEq, Repr

/-- Where clause AST: a predicate, or a conjunction of two clauses. -/
inductive WhereClause where
  | pred (p : Predicate)
  | and (l r : WhereClause)
deriving DecidableEq, Repr

/-- Order-by clause of the soql-parser-js AST (field plus direction). -/
structure OrderByClause where
  field : String
  order : String
deriving DecidableEq, Repr

/-- Parsed query AST: the parts of the soql-parser-js Query value used by the
source (top-level field list, target entity, filter, ordering, row cap). -/
structure Query where
  fields : List SOQLField
  sObject : String
  whereClause : Option WhereClause
  orderBy : Option OrderByClause
  limit : Option Nat
deriving DecidableEq, Repr

instance : Inhabited Query := ⟨⟨[], "", none, none, none⟩⟩

/-- Modelled from the spec: CommonUtils.composeWhereClause (the helper module
is not part of the provided sources).  Spec section 4.1: andPredicate conjoins
a new predicate onto the existing filter clause, creating one if absent. -/
def composeWhereClause (w : Option WhereClause) (field : String) (values : List String)
    (operator : String) (valueType : String) : WhereClause :=
  match w with
  | none => WhereClause.pred (Predicate.mk field operator values valueType)
  | some w0 => WhereClause.and w0 (WhereClause.pred (Predicate.mk field operator values valueType))

/-- Modelled from the spec: CommonUtils.distinctArray keyed on the field
property (the helper module is not part of the provided sources).  Spec
section 4.1: duplicates are collapsed by a stable pass keyed on field
identity, first occurrence wins. -/
def distinctFields (l : List SOQLField) : List SOQLField :=
  l.foldl (fun acc f => if acc.any (fun g => decide (g.field = f.field)) then acc else acc ++ [f]) []

/-- Compile-time failures raised by the source.  All constructors except
nullOrgInfo model a thrown CommandInitializationError carrying the named
resource message together with its context arguments; nullOrgInfo models the
TypeError raised at line 291 when the credential command output was empty, so
parseForceOrgDisplayResult returned null and the null value is dereferenced. -/
inductive SfdmuError where
  | noObjectsDefined
  | malformedQuery (name query : String)
  | malformedDeleteQuery (name deleteQuery : String)
  | orgConnectFailed (name : String)
  | accessToOrgExpired (name : String)
  | nullOrgInfo
deriving DecidableEq, Repr

/-- Discriminates the error constructors that model a thrown
CommandInitializationError from the modelled TypeError. -/
def SfdmuError.isCommandInitializationError : SfdmuError → Bool
  | SfdmuError.nullOrgInfo => false
  | _ => true

/-- Description of one sobject field (class SFieldDescribe of the source). -/
structure SFieldDescribe where
  name : String
  type : String
  label : String
  updateable : Bool
  creatable : Bool
  cascadeDelete : Bool
  autoNumber : Bool
  custom : Bool
  calculated : Bool
  isReference : Bool
  referencedObjectType : String
deriving DecidableEq, Repr

instance : Inhabited SFieldDescribe := ⟨⟨"", "", "", false, false, false, false, false, false, false, ""⟩⟩

/-- Getter isFormula of SFieldDescribe. -/
def SFieldDescribe.isFormula (d : SFieldDescribe) : Bool := d.calculated

/-- Getter isReadonly of SFieldDescribe (line 538 of the source). -/
def SFieldDescribe.isReadonly (d : SFieldDescribe) : Bool :=
  !(d.creatable && !d.isFormula && !d.autoNumber)

/-- Lookup in an insertion-ordered association list, modelling the get method
of a JavaScript Map. -/
def jsMapGet {α : Type} (m : List (String × α)) (k : String) : Option α :=
  (m.find? (fun p => decide (p.1 = k))).map (fun p => p.2)

/-- Update of an insertion-ordered association list, modelling the set method
of a JavaScript Map: an existing key keeps its position and receives the new
value, a new key is appended at the end. -/
def jsMapSet {α : Type} (m : List (String × α)) (k : String) (v : α) : List (String × α) :=
  if m.any (fun p => decide (p.1 = k)) then
    m.map (fun p => if p.1 = k then (k, v) else p)
  else m ++ [(k, v)]

/-- Raw script object entry and its compiled form (class ScriptObject of the
source).  The describe maps are inputs of the later schema-description phase
and only read by the fieldsToUpdate getter; the script back-reference and the
mock-field list are not consumed by any modelled operation and are omitted. -/
structure ScriptObject where
  query : String
  deleteQuery : String
  operation : OperationValue
  externalId : String
  deleteOldData : Bool
  updateWithMockData : Bool
  mockCSVData : Bool
  targetRecordsFilter : String
  excluded : Bool
  useCSVValuesMapping : Bool
  allRecords : Bool
  name : String
  initialExternalId : String
  parsedQuery : Option Query
  parsedDeleteQuery : Option Query
  isExtraObject : Bool
  sourceFieldsMap : List (String × SFieldDescribe)
  targetFieldsMap : List (String × SFieldDescribe)
deriving DecidableEq, Repr

/-- Property initializers of a freshly constructed ScriptObject. -/
instance : Inhabited ScriptObject :=
  ⟨⟨"", "", OperationValue.op OPERATION.Readonly, "Name", false, false, false, "", false,
    false, true, "", "", none, none, false, [], []⟩⟩

/-- Getter fieldsInQuery (lines 349-354 of the source). -/
def ScriptObject.fieldsInQuery (o : ScriptObject) : List String :=
  match o.parsedQuery with
  | none => []
  | some q => q.fields.map (fun f => f.field)

/-- Getter hasRecordTypeIdField (lines 372-374 of the source). -/
def ScriptObject.hasRecordTypeIdField (o : ScriptObject) : Bool :=
  o.fieldsInQuery.any (fun x => decide (x = "RecordTypeId"))

/-- Truthiness of the nullable string produced for each field by the
fieldsToUpdate getter: null and the empty string are falsy. -/
def optStrTruthy : Option String → Bool
  | none => false
  | some s => decide (s ≠ "")

/-- Getter fieldsToUpdate (lines 356-370 of the source).  The inner lambda
returns the field name when the target map has a descriptor for it (the
loose conjunction yields the source descriptor in that case) and the source
descriptor exists and is not read only; otherwise it returns null.  The
trailing truthiness filter keeps exactly the non-null, non-empty names. -/
def ScriptObject.fieldsToUpdate (o : ScriptObject) : List String :=
  match o.parsedQuery with
  | none => []
  | some q =>
    if o.sourceFieldsMap.length = 0 ∨ o.operation = OperationValue.op OPERATION.Readonly then []
    else
      ((q.fields.map (fun x =>
          match jsMapGet o.targetFieldsMap x.field, jsMapGet o.sourceFieldsMap x.field with
          | some _, some d => if d.isReadonly then none else some x.field
          | _, _ => none)).filter optStrTruthy).filterMap id

/-- Media kind of an endpoint.  Modelled from the spec: LiveService (Org) and
LocalFileSet (File); the enum itself lives in the statics module, which is not
part of the provided sources. -/
inductive DATA_MEDIA_TYPE where
  | Org
  | File
deriving DecidableEq, Repr

/-- Endpoint descriptor (class ScriptOrg of the source).  The script
back-reference is replaced by explicit parameters where the source reads it. -/
structure ScriptOrg where
  name : String
  instanceUrl : String
  accessToken : String
  media : DATA_MEDIA_TYPE
  isSource : Bool
  isPersonAccountEnabled : Bool
deriving DecidableEq, Repr

instance : Inhabited ScriptOrg := ⟨⟨"", "", "", DATA_MEDIA_TYPE.Org, false, false⟩⟩

/-- Getter isConnected of ScriptOrg: truthiness of the access token. -/
def ScriptOrg.isConnected (o : ScriptOrg) : Bool := decide (o.accessToken ≠ "")

/-- Getter isFileMedia of ScriptOrg. -/
def ScriptOrg.isFileMedia (o : ScriptOrg) : Bool := decide (o.media = DATA_MEDIA_TYPE.File)

/-- Response of the credential command (class OrgInfo of the source).  Fields
are optional strings: none models the undefined value of a property that no
line of the command output assigned. -/
structure OrgInfo where
  AccessToken : Option String
  ClientId : Option String
  ConnectedStatus : Option String
  Status : Option String
  OrgId : Option String
  UserId : Option String
  InstanceUrl : Option String
  Username : Option String
deriving DecidableEq, Repr

instance : Inhabited OrgInfo := ⟨⟨none, none, none, none, none, none, none, none⟩⟩

/-- Getter isConnected of OrgInfo (lines 566-568 of the source).  An
unassigned property is never equal to the checked literals. -/
def OrgInfo.isConnected (i : OrgInfo) : Bool :=
  decide (i.ConnectedStatus = some "Connected") || decide (i.Status = some "Active")

/-- Splitting a string at every occurrence of a separator character,
modelling the JavaScript split method (an empty input yields one empty
part, a trailing separator yields a trailing empty part).  Implemented over
the character list so concrete inputs evaluate inside the kernel. -/
def splitOnChar (c : Char) (s : String) : List String :=
  (s.data.foldr (fun ch acc =>
    match acc with
    | [] => [[ch]]
    | cur :: rest => if ch = c then [] :: cur :: rest else (ch :: cur) :: rest) [[]]).map
    (fun l => String.mk l)

/-- Prefix test on strings, modelling the JavaScript startsWith method.
Implemented over the character lists so concrete inputs evaluate inside the
kernel. -/
def strStartsWith (s pre : String) : Bool :=
  pre.data.isPrefixOf s.data

/-- Lower-casing of a string, modelling the JavaScript toLowerCase method.
Implemented over the character list so concrete inputs evaluate inside the
kernel. -/
def strToLower (s : String) : String :=
  String.mk (s.data.map Char.toLower)

/-- One iteration of the forEach loop of parseForceOrgDisplayResult
(lines 244-259 of the source).  Each recognized key prefix assigns the last
space-delimited token of the line; the checks are independent if statements,
applied in source order. -/
def parseForceOrgDisplayLine (acc : OrgInfo) (line : String) : OrgInfo :=
  let lastTok := (splitOnChar ' ' line).getLastD ""
  let acc := if strStartsWith line "Access Token" then { acc with AccessToken := some lastTok } else acc
  let acc := if strStartsWith line "Client Id" then { acc with ClientId := some lastTok } else acc
  let acc := if strStartsWith line "Connected Status" then { acc with ConnectedStatus := some lastTok } else acc
  let acc := if strStartsWith line "Status" then { acc with Status := some lastTok } else acc
  let acc := if strStartsWith line "Id" then { acc with OrgId := some lastTok } else acc
  let acc := if strStartsWith line "Instance Url" then { acc with InstanceUrl := some lastTok } else acc
  if strStartsWith line "Username" then { acc with Username := some lastTok } else acc

/-- Method parseForceOrgDisplayResult of ScriptOrg (lines 240-261 of the
source): a falsy (empty) command result yields null, otherwise the output is
split into lines and folded into an OrgInfo value. -/
def parseForceOrgDisplayResult (commandResult : String) : Option OrgInfo :=
  if commandResult = "" then none
  else some ((splitOnChar (Char.ofNat 10) commandResult).foldl parseForceOrgDisplayLine default)

/-- Credential acquisition step of setupConnection (lines 286-299 of the
source), for a live org that is not yet connected.  The display parameter is
the output of the external credential command for this org.  When the parsed
org info is null the source dereferences it, modelled by the nullOrgInfo
error; when the info carries no connected indicator a
CommandInitializationError is thrown; otherwise the access token and instance
url are copied onto the org (an absent value is copied as the empty string,
matching the falsiness of undefined in every later truthiness test). -/
def connectStep (display : String) (o : ScriptOrg) : Except SfdmuError ScriptOrg :=
  if o.isConnected then Except.ok o
  else
    match parseForceOrgDisplayResult display with
    | none => Except.error SfdmuError.nullOrgInfo
    | some info =>
      if info.isConnected then
        Except.ok { o with accessToken := info.AccessToken.getD "", instanceUrl := info.InstanceUrl.getD "" }
      else Except.error (SfdmuError.orgConnectFailed o.name)

/-- Method validateAccessTokenAsync of ScriptOrg (lines 264-281 of the
source).  The probe oracle tells, for each query text, whether the query
collaborator succeeds on it.  A failing primary probe throws the
access-expired CommandInitializationError; the person-account probe never
throws, it only records its own success in isPersonAccountEnabled. -/
def validateAccessTokenAsync (probe : String → Bool) (o : ScriptOrg) : Except SfdmuError ScriptOrg :=
  if o.isFileMedia then Except.ok o
  else if !(probe "SELECT Id FROM Account LIMIT 1") then
    Except.error (SfdmuError.accessToOrgExpired o.name)
  else
    Except.ok { o with isPersonAccountEnabled := probe "SELECT IsPersonAccount FROM Account LIMIT 1" }

/-- Method setupAsync of ScriptOrg (lines 230-233 and 284-305 of the source):
a no-op for file media, otherwise the credential acquisition step (skipped
when already connected) followed by token validation. -/
def ScriptOrg.setupAsync (display : String) (probe : String → Bool) (o : ScriptOrg) :
    Except SfdmuError ScriptOrg :=
  if o.isFileMedia then Except.ok o
  else
    match connectStep display o with
    | Except.error e => Except.error e
    | Except.ok o1 => validateAccessTokenAsync probe o1

/-- Initialization preamble of ScriptObject.setup (lines 417-428 of the
source): record the user-supplied external id, normalize a textual operation
to the enum, and force the external id to Id for the Insert operation. -/
def ScriptObject.initStep (o : ScriptObject) : ScriptObject :=
  let o1 := { o with initialExternalId := o.externalId, operation := fixOperationValue o.operation }
  if o1.operation = OperationValue.op OPERATION.Insert then { o1 with externalId := "Id" } else o1

/-- Lines 439-441 of the source: append the Id field when the field list does
not already carry it. -/
def ensureIdField (q : Query) : Query :=
  if "Id" ∈ q.fields.map (fun f => f.field) then q
  else { q with fields := q.fields ++ [getComposedField "Id"] }

/-- Field-list normalization applied to the parsed primary query
(lines 433-441 of the source): de-duplicate the fields, replace the list by
the single Id field for the Delete operation, then ensure Id is present. -/
def normalizeParsedQuery (isDelete : Bool) (q : Query) : Query :=
  let q1 := { q with fields := distinctFields q.fields }
  ensureIdField (if isDelete then { q1 with fields := [getComposedField "Id"] } else q1)

/-- Object state after the primary-query phase of ScriptObject.setup
(lines 431-448 of the source) when parsing succeeded with AST q0: the Delete
operation forces deleteOldData, the normalized AST is stored, the query text
is recomposed, and the name is taken from the target-entity clause. -/
def setupNormalizedObject (compose : Query → String) (o0 : ScriptObject) (q0 : Query) : ScriptObject :=
  let o := o0.initStep
  let isDelete := decide (o.operation = OperationValue.op OPERATION.Delete)
  let o1 := if isDelete then { o with deleteOldData := true } else o
  let q := normalizeParsedQuery isDelete q0
  { o1 with parsedQuery := some q, query := compose q, name := q.sObject }

/-- Delete-query rewriting (lines 459-462 of the source): force the field
list to the single Id field, and for the Contact entity of a person-account
enabled source conjoin the person-account exclusion predicate. -/
def deriveDeleteQuery (sourcePAEnabled : Bool) (name : String) (dq0 : Query) : Query :=
  let dq1 := { dq0 with fields := [getComposedField "Id"] }
  if sourcePAEnabled && decide (name = "Contact") then
    { dq1 with
      whereClause := some (composeWhereClause dq1.whereClause "IsPersonAccount" ["false"] "=" "BOOLEAN") }
  else dq1

/-- Base text chosen for the delete query (lines 454-458 of the source): the
explicit delete query when it is non-empty (truthy), otherwise the already
recomposed primary query text. -/
def deleteQueryBase (parse : String → Option Query) (o2 : ScriptObject) : Option Query :=
  if o2.deleteQuery ≠ "" then parse o2.deleteQuery else parse o2.query

/-- Object state after the delete-query phase succeeded with base AST dq0
(lines 459-463 of the source): the rewritten delete AST is stored and its
recomposed text replaces the deleteQuery property. -/
def applyDeleteQuery (compose : Query → String) (sourcePAEnabled : Bool)
    (o2 : ScriptObject) (dq0 : Query) : ScriptObject :=
  { o2 with
    parsedDeleteQuery := some (deriveDeleteQuery sourcePAEnabled o2.name dq0)
    deleteQuery := compose (deriveDeleteQuery sourcePAEnabled o2.name dq0) }

/-- Delete-query phase of ScriptObject.setup (lines 451-467 of the source),
running on the object state o2 left by the primary-query phase.  When
deleteOldData is not set the phase is a no-op; a failed base parse raises the
malformed-delete-query error carrying the entity name and the raw delete
query text. -/
def setupDeleteStep (parse : String → Option Query) (compose : Query → String)
    (sourcePAEnabled : Bool) (m : List (String × ScriptObject)) (o2 : ScriptObject) :
    Except SfdmuError (ScriptObject × List (String × ScriptObject)) :=
  if o2.deleteOldData then
    match deleteQueryBase parse o2 with
    | none => Except.error (SfdmuError.malformedDeleteQuery o2.name o2.deleteQuery)
    | some dq0 =>
      Except.ok (applyDeleteQuery compose sourcePAEnabled o2 dq0,
        jsMapSet m (applyDeleteQuery compose sourcePAEnabled o2 dq0).name
          (applyDeleteQuery compose sourcePAEnabled o2 dq0))
  else Except.ok (o2, jsMapSet m o2.name o2)

/-- Method setup of ScriptObject (lines 414-469 of the source).  The map
parameter is the objectsMap of the owning script; the source registers the
object in it at line 449 and keeps mutating the same reference afterwards,
so on success the map holds the final object value, which is what the
returned map records.  The sourcePAEnabled parameter is the
isPersonAccountEnabled flag of the source org of the owning script. -/
def ScriptObject.setup (parse : String → Option Query) (compose : Query → String)
    (sourcePAEnabled : Bool) (m : List (String × ScriptObject)) (o0 : ScriptObject) :
    Except SfdmuError (ScriptObject × List (String × ScriptObject)) :=
  match parse o0.initStep.query with
  | none => Except.error (SfdmuError.malformedQuery o0.initStep.name o0.initStep.query)
  | some q0 => setupDeleteStep parse compose sourcePAEnabled m (setupNormalizedObject compose o0 q0)

/-- Root script (class Script of the source).  Scalar options that no modelled
operation reads are omitted; the logger is out of scope. -/
structure Script where
  orgs : List ScriptOrg
  objects : List ScriptObject
  apiVersion : String
  basePath : String
  sourceOrg : ScriptOrg
  targetOrg : ScriptOrg
  objectsMap : List (String × ScriptObject)
deriving DecidableEq, Repr

instance : Inhabited Script := ⟨⟨[], [], "", "", default, default, []⟩⟩

/-- Exclusion filter predicate of Script.setupAsync (line 105 of the source):
an entry is kept when it is not excluded or its operation value equals the
Readonly enum member.  The comparison is the loose equality of the source
applied to the raw, not yet normalized operation value, so a textual
operation never equals the numeric enum member. -/
def excludedFilter (o : ScriptObject) : Bool :=
  !o.excluded || decide (o.operation = OperationValue.op OPERATION.Readonly)

/-- Media kind derived from an endpoint username (lines 122 and 127 of the
source): the case-insensitive sentinel csvfile marks file media. -/
def mediaOf (username : String) : DATA_MEDIA_TYPE :=
  if strToLower username = "csvfile" then DATA_MEDIA_TYPE.File else DATA_MEDIA_TYPE.Org

/-- Org resolution of Script.setupAsync (lines 98-99 of the source): the
first org entry with the given name, or a freshly constructed org. -/
def Script.findOrg (s : Script) (username : String) : ScriptOrg :=
  (s.orgs.filter (fun x => decide (x.name = username))).headD default

/-- Loop of Script.setupAsync over the surviving object entries
(lines 135-138 of the source), threading the objectsMap through each setup. -/
def setupObjects (parse : String → Option Query) (compose : Query → String)
    (sourcePAEnabled : Bool) : List ScriptObject → List (String × ScriptObject) →
    Except SfdmuError (List ScriptObject × List (String × ScriptObject))
  | [], m => Except.ok ([], m)
  | o :: rest, m =>
    match ScriptObject.setup parse compose sourcePAEnabled m o with
    | Except.error e => Except.error e
    | Except.ok (o1, m1) =>
      match setupObjects parse compose sourcePAEnabled rest m1 with
      | Except.error e => Except.error e
      | Except.ok (rest1, m2) => Except.ok (o1 :: rest1, m2)

/-- Raw extra object injected for record types (lines 147-156 of the source):
a freshly constructed ScriptObject overwritten with the fixed RecordType
properties. -/
def recordTypeTemplate : ScriptObject :=
  { (default : ScriptObject) with
    name := "RecordType"
    externalId := "DeveloperName"
    isExtraObject := true
    allRecords := true
    query := "SELECT Id FROM RecordType"
    operation := OperationValue.op OPERATION.Readonly }

/-- Overwriting of the freshly compiled RecordType object (lines 159-164 of
the source): the where clause of its parsed query is replaced by the
SobjectType restriction over the referencing entity names, the ordering is
set to SobjectType ascending, and the query text is recomposed. -/
def recordTypeFinalize (compose : Query → String) (rtNames : List String)
    (obj : ScriptObject) : ScriptObject :=
  let pq0 := obj.parsedQuery.getD default
  let pq := { pq0 with
    whereClause := some (composeWhereClause pq0.whereClause "SobjectType" rtNames "IN" "STRING")
    orderBy := some (OrderByClause.mk "SobjectType" "ASC") }
  { obj with parsedQuery := some pq, query := compose pq }

/-- Record-type dependency injection of Script.setupAsync (lines 144-165 of
the source): when at least one compiled object references the RecordTypeId
field, one extra RecordType object is compiled through the ordinary setup
and then finalized.  The final map update models the aliasing of the source:
the map entry set during setup is the same reference that keeps being
mutated afterwards, so on success the map holds the finalized object. -/
def injectRecordType (parse : String → Option Query) (compose : Query → String)
    (sourcePAEnabled : Bool) (objects : List ScriptObject) (m : List (String × ScriptObject)) :
    Except SfdmuError (List ScriptObject × List (String × ScriptObject)) :=
  if ((objects.filter (fun x => x.hasRecordTypeIdField)).map (fun x => x.name)).isEmpty then
    Except.ok (objects, m)
  else
    match ScriptObject.setup parse compose sourcePAEnabled m recordTypeTemplate with
    | Except.error e => Except.error e
    | Except.ok (obj, m1) =>
      Except.ok (objects ++ [recordTypeFinalize compose
          ((objects.filter (fun x => x.hasRecordTypeIdField)).map (fun x => x.name)) obj],
        jsMapSet m1 (recordTypeFinalize compose
          ((objects.filter (fun x => x.hasRecordTypeIdField)).map (fun x => x.name)) obj).name
          (recordTypeFinalize compose
            ((objects.filter (fun x => x.hasRecordTypeIdField)).map (fun x => x.name)) obj))

/-- Method setupAsync of Script (lines 93-166 of the source).  The display
and probe parameters are the external credential and query collaborators for
the two endpoints; denylist is CONSTANTS.NOT_SUPPORTED_OBJECTS of the statics
module (not part of the provided sources), passed as a parameter.  Steps in
source order: resolve orgs by name, apply the exclusion filter, fail when no
entry survives, assign endpoint roles and media kinds, set up the source org
then the target org, compile every surviving entry, drop denylisted entity
names, and run the record-type injection. -/
def Script.setupAsync (parse : String → Option Query) (compose : Query → String)
    (sourceDisplay targetDisplay : String) (sourceProbe targetProbe : String → Bool)
    (denylist : List String) (sourceUsername targetUsername basePath apiVersion : String)
    (s : Script) : Except SfdmuError Script :=
  let sourceOrg0 := s.findOrg sourceUsername
  let targetOrg0 := s.findOrg targetUsername
  let apiVersion1 := if apiVersion ≠ "" then apiVersion else s.apiVersion
  let objects1 := s.objects.filter excludedFilter
  if objects1.isEmpty then Except.error SfdmuError.noObjectsDefined
  else
    let sourceOrg1 := { sourceOrg0 with
      name := sourceUsername, isSource := true, media := mediaOf sourceUsername }
    let targetOrg1 := { targetOrg0 with
      name := targetUsername, media := mediaOf targetUsername }
    match ScriptOrg.setupAsync sourceDisplay sourceProbe sourceOrg1 with
    | Except.error e => Except.error e
    | Except.ok sourceOrg2 =>
      match ScriptOrg.setupAsync targetDisplay targetProbe targetOrg1 with
      | Except.error e => Except.error e
      | Except.ok targetOrg2 =>
        match setupObjects parse compose sourceOrg2.isPersonAccountEnabled objects1 s.objectsMap with
        | Except.error e => Except.error e
        | Except.ok (objects2, m2) =>
          let objects3 := objects2.filter (fun x => !decide (x.name ∈ denylist))
          match injectRecordType parse compose sourceOrg2.isPersonAccountEnabled objects3 m2 with
          | Except.error e => Except.error e
          | Except.ok (objects4, m4) =>
            Except.ok { s with
              sourceOrg := sourceOrg2
              targetOrg := targetOrg2
              apiVersion := apiVersion1
              basePath := basePath
              objects := objects4
              objectsMap := m4 }

/-! Helper lemmas about the per-object compilation pipeline. -/

theorem initStep_query (o : ScriptObject) : o.initStep.query = o.query := by
  simp only [ScriptObject.initStep]; split <;> rfl

theorem initStep_name (o : ScriptObject) : o.initStep.name = o.name := by
  simp only [ScriptObject.initStep]; split <;> rfl

theorem initStep_deleteQuery (o : ScriptObject) : o.initStep.deleteQuery = o.deleteQuery := by
  simp only [ScriptObject.initStep]; split <;> rfl

theorem initStep_deleteOldData (o : ScriptObject) : o.initStep.deleteOldData = o.deleteOldData := by
  simp only [ScriptObject.initStep]; split <;> rfl

theorem initStep_operation (o : ScriptObject) : o.initStep.operation = fixOperationValue o.operation := by
  simp only [ScriptObject.initStep]; split <;> rfl

theorem initStep_excluded (o : ScriptObject) : o.initStep.excluded = o.excluded := by
  simp only [ScriptObject.initStep]; split <;> rfl

theorem initStep_isExtraObject (o : ScriptObject) : o.initStep.isExtraObject = o.isExtraObject := by
  simp only [ScriptObject.initStep]; split <;> rfl

theorem initStep_allRecords (o : ScriptObject) : o.initStep.allRecords = o.allRecords := by
  simp only [ScriptObject.initStep]; split <;> rfl

theorem initStep_externalId_insert (o : ScriptObject)
    (h : fixOperationValue o.operation = OperationValue.op OPERATION.Insert) :
    o.initStep.externalId = "Id" := by
  simp only [ScriptObject.initStep]
  split
  · rfl
  · next hcond => exact absurd h hcond

theorem initStep_externalId_not_insert (o : ScriptObject)
    (h : fixOperationValue o.operation ≠ OperationValue.op OPERATION.Insert) :
    o.initStep.externalId = o.externalId := by
  simp only [ScriptObject.initStep]
  split
  · next hcond => exact absurd hcond h
  · rfl

theorem distinctFields_subset (l : List SOQLField) : ∀ f ∈ distinctFields l, f ∈ l := by
  have aux : ∀ (l acc : List SOQLField) (f : SOQLField),
      f ∈ l.foldl (fun acc f =>
        if acc.any (fun g => decide (g.field = f.field)) then acc else acc ++ [f]) acc →
      f ∈ acc ∨ f ∈ l := by
    intro l
    induction l with
    | nil => intro acc f h; exact Or.inl h
    | cons x xs ih =>
      intro acc f h
      simp only [List.foldl_cons] at h
      rcases ih _ f h with hacc | hxs
      · by_cases hc : acc.any (fun g => decide (g.field = x.field))
        · rw [if_pos hc] at hacc; exact Or.inl hacc
        · rw [if_neg hc] at hacc
          rcases List.mem_append.mp hacc with h1 | h2
          · exact Or.inl h1
          · simp only [List.mem_singleton] at h2
            exact Or.inr (h2 ▸ List.mem_cons_self x xs)
      · exact Or.inr (List.mem_cons_of_mem x hxs)
  intro f h
  rcases aux l [] f h with h0 | h1
  · cases h0
  · exact h1

theorem ensureIdField_sObject (q : Query) : (ensureIdField q).sObject = q.sObject := by
  simp only [ensureIdField]; split <;> rfl

theorem ensureIdField_id_mem (q : Query) :
    "Id" ∈ (ensureIdField q).fields.map (fun f => f.field) := by
  simp only [ensureIdField]
  split
  · next h => exact h
  · simp [getComposedField]

theorem ensureIdField_of_not_mem (q : Query)
    (h : "Id" ∉ q.fields.map (fun f => f.field)) :
    (ensureIdField q).fields = q.fields ++ [getComposedField "Id"] := by
  simp only [ensureIdField]
  rw [if_neg h]

theorem normalizeParsedQuery_sObject (d : Bool) (q : Query) :
    (normalizeParsedQuery d q).sObject = q.sObject := by
  simp only [normalizeParsedQuery]
  split <;> rw [ensureIdField_sObject]

theorem normalizeParsedQuery_id_mem (d : Bool) (q : Query) :
    "Id" ∈ (normalizeParsedQuery d q).fields.map (fun f => f.field) := by
  simp only [normalizeParsedQuery]
  split <;> exact ensureIdField_id_mem _

theorem normalizeParsedQuery_delete_fields (q : Query) :
    (normalizeParsedQuery true q).fields = [getComposedField "Id"] := by
  have h : normalizeParsedQuery true q =
      ensureIdField (Query.mk [getComposedField "Id"] q.sObject q.whereClause q.orderBy q.limit) := rfl
  rw [h]
  simp [ensureIdField, getComposedField]

theorem normalizeParsedQuery_append (q : Query)
    (h : "Id" ∉ q.fields.map (fun f => f.field)) :
    (normalizeParsedQuery false q).fields = distinctFields q.fields ++ [getComposedField "Id"] := by
  have he : normalizeParsedQuery false q =
      ensureIdField (Query.mk (distinctFields q.fields) q.sObject q.whereClause q.orderBy q.limit) := rfl
  rw [he]
  apply ensureIdField_of_not_mem
  intro hmem
  rcases List.mem_map.mp hmem with ⟨f, hf, hfeq⟩
  exact h (List.mem_map.mpr ⟨f, distinctFields_subset _ f hf, hfeq⟩)

theorem sno_parsedQuery (compose : Query → String) (o0 : ScriptObject) (q0 : Query) :
    (setupNormalizedObject compose o0 q0).parsedQuery =
      some (normalizeParsedQuery
        (decide (o0.initStep.operation = OperationValue.op OPERATION.Delete)) q0) := rfl

theorem sno_name (compose : Query → String) (o0 : ScriptObject) (q0 : Query) :
    (setupNormalizedObject compose o0 q0).name =
      (normalizeParsedQuery
        (decide (o0.initStep.operation = OperationValue.op OPERATION.Delete)) q0).sObject := rfl

theorem sno_query (compose : Query → String) (o0 : ScriptObject) (q0 : Query) :
    (setupNormalizedObject compose o0 q0).query =
      compose (normalizeParsedQuery
        (decide (o0.initStep.operation = OperationValue.op OPERATION.Delete)) q0) := rfl

theorem sno_deleteQuery (compose : Query → String) (o0 : ScriptObject) (q0 : Query) :
    (setupNormalizedObject compose o0 q0).deleteQuery = o0.deleteQuery := by
  simp only [setupNormalizedObject]
  split <;> rw [initStep_deleteQuery]

theorem sno_deleteOldData (compose : Query → String) (o0 : ScriptObject) (q0 : Query) :
    (setupNormalizedObject compose o0 q0).deleteOldData =
      (o0.deleteOldData || decide (fixOperationValue o0.operation = OperationValue.op OPERATION.Delete)) := by
  simp only [setupNormalizedObject]
  split
  · next h =>
    rw [initStep_operation] at h
    simp [h]
  · next h =>
    rw [initStep_operation] at h
    simp [h, initStep_deleteOldData]

theorem sno_operation (compose : Query → String) (o0 : ScriptObject) (q0 : Query) :
    (setupNormalizedObject compose o0 q0).operation = fixOperationValue o0.operation := by
  simp only [setupNormalizedObject]
  split <;> rw [initStep_operation]

theorem sno_externalId (compose : Query → String) (o0 : ScriptObject) (q0 : Query) :
    (setupNormalizedObject compose o0 q0).externalId = o0.initStep.externalId := by
  simp only [setupNormalizedObject]
  split <;> rfl

theorem sno_isExtraObject (compose : Query → String) (o0 : ScriptObject) (q0 : Query) :
    (setupNormalizedObject compose o0 q0).isExtraObject = o0.isExtraObject := by
  simp only [setupNormalizedObject]
  split <;> rw [initStep_isExtraObject]

theorem sno_allRecords (compose : Query → String) (o0 : ScriptObject) (q0 : Query) :
    (setupNormalizedObject compose o0 q0).allRecords = o0.allRecords := by
  simp only [setupNormalizedObject]
  split <;> rw [initStep_allRecords]

theorem jsMapGet_nil {α : Type} (k : String) : jsMapGet ([] : List (String × α)) k = none := rfl

theorem jsMapGet_cons {α : Type} (p : String × α) (m : List (String × α)) (k : String) :
    jsMapGet (p :: m) k = if p.1 = k then some p.2 else jsMapGet m k := by
  by_cases h : p.1 = k
  · simp [jsMapGet, List.find?_cons, h]
  · simp [jsMapGet, List.find?_cons, h]

theorem jsMapSet_cons_ne {α : Type} (p : String × α) (m : List (String × α)) (k : String) (v : α)
    (h : p.1 ≠ k) : jsMapSet (p :: m) k v = p :: jsMapSet m k v := by
  by_cases hm : (m.any (fun p => decide (p.1 = k))) = true
  · simp [jsMapSet, h, hm]
  · simp [jsMapSet, h, hm]

theorem jsMapGet_map_update_ne {α : Type} (m : List (String × α)) (k k' : String) (v : α)
    (h : k' ≠ k) :
    jsMapGet (m.map (fun p => if p.1 = k then (k, v) else p)) k' = jsMapGet m k' := by
  induction m with
  | nil => rfl
  | cons p m ih =>
    by_cases hp : p.1 = k
    · simp [List.map_cons, hp, jsMapGet_cons, Ne.symm h, ih]
    · simp [List.map_cons, hp, jsMapGet_cons, ih]

theorem jsMapGet_append_singleton_ne {α : Type} (m : List (String × α)) (k k' : String) (v : α)
    (h : k' ≠ k) : jsMapGet (m ++ [(k, v)]) k' = jsMapGet m k' := by
  induction m with
  | nil =>
    simp only [List.nil_append, jsMapGet_cons, jsMapGet_nil]
    rw [if_neg (by exact fun hh => h hh.symm)]
  | cons p m ih =>
    simp only [List.cons_append, jsMapGet_cons]
    rw [ih]

theorem jsMapGet_jsMapSet_self {α : Type} (m : List (String × α)) (k : String) (v : α) :
    jsMapGet (jsMapSet m k v) k = some v := by
  induction m with
  | nil => simp [jsMapSet, jsMapGet_cons]
  | cons p m ih =>
    by_cases hp : p.1 = k
    · simp [jsMapSet, List.any_cons, hp, jsMapGet_cons]
    · rw [jsMapSet_cons_ne p m k v hp, jsMapGet_cons, if_neg hp]
      exact ih

theorem jsMapGet_jsMapSet_ne {α : Type} (m : List (String × α)) (k k' : String) (v : α)
    (h : k' ≠ k) : jsMapGet (jsMapSet m k v) k' = jsMapGet m k' := by
  simp only [jsMapSet]
  split
  · exact jsMapGet_map_update_ne m k k' v h
  · exact jsMapGet_append_singleton_ne m k k' v h

theorem jsMapGet_jsMapSet_isSome {α : Type} (m : List (String × α)) (k k' : String) (v : α)
    (h : (jsMapGet m k').isSome = true) : (jsMapGet (jsMapSet m k v) k').isSome = true := by
  by_cases hk : k' = k
  · subst hk; rw [jsMapGet_jsMapSet_self]; rfl
  · rw [jsMapGet_jsMapSet_ne m k k' v hk]; exact h

theorem applyDeleteQuery_parsedQuery (compose : Query → String) (pa : Bool)
    (o2 : ScriptObject) (dq0 : Query) :
    (applyDeleteQuery compose pa o2 dq0).parsedQuery = o2.parsedQuery := rfl

theorem applyDeleteQuery_name (compose : Query → String) (pa : Bool)
    (o2 : ScriptObject) (dq0 : Query) :
    (applyDeleteQuery compose pa o2 dq0).name = o2.name := rfl

theorem applyDeleteQuery_externalId (compose : Query → String) (pa : Bool)
    (o2 : ScriptObject) (dq0 : Query) :
    (applyDeleteQuery compose pa o2 dq0).externalId = o2.externalId := rfl

theorem applyDeleteQuery_operation (compose : Query → String) (pa : Bool)
    (o2 : ScriptObject) (dq0 : Query) :
    (applyDeleteQuery compose pa o2 dq0).operation = o2.operation := rfl

theorem applyDeleteQuery_deleteOldData (compose : Query → String) (pa : Bool)
    (o2 : ScriptObject) (dq0 : Query) :
    (applyDeleteQuery compose pa o2 dq0).deleteOldData = o2.deleteOldData := rfl

theorem applyDeleteQuery_query (compose : Query → String) (pa : Bool)
    (o2 : ScriptObject) (dq0 : Query) :
    (applyDeleteQuery compose pa o2 dq0).query = o2.query := rfl

theorem applyDeleteQuery_parsedDeleteQuery (compose : Query → String) (pa : Bool)
    (o2 : ScriptObject) (dq0 : Query) :
    (applyDeleteQuery compose pa o2 dq0).parsedDeleteQuery =
      some (deriveDeleteQuery pa o2.name dq0) := rfl

theorem setupDeleteStep_ok {parse : String → Option Query} {compose : Query → String}
    {pa : Bool} {m : List (String × ScriptObject)} {o2 o' : ScriptObject}
    {m' : List (String × ScriptObject)}
    (h : setupDeleteStep parse compose pa m o2 = Except.ok (o', m')) :
    m' = jsMapSet m o'.name o' ∧
      ((o2.deleteOldData = false ∧ o' = o2) ∨
       (o2.deleteOldData = true ∧ ∃ dq0, deleteQueryBase parse o2 = some dq0 ∧
          o' = applyDeleteQuery compose pa o2 dq0)) := by
  unfold setupDeleteStep at h
  by_cases hd : o2.deleteOldData = true
  · rw [if_pos hd] at h
    cases hb : deleteQueryBase parse o2 with
    | none => rw [hb] at h; cases h
    | some dq0 =>
      rw [hb] at h
      simp only [Except.ok.injEq, Prod.mk.injEq] at h
      obtain ⟨ho, hm⟩ := h
      subst ho
      subst hm
      exact ⟨rfl, Or.inr ⟨hd, dq0, rfl, rfl⟩⟩
  · rw [if_neg hd] at h
    simp only [Except.ok.injEq, Prod.mk.injEq] at h
    obtain ⟨ho, hm⟩ := h
    subst ho
    subst hm
    exact ⟨rfl, Or.inl ⟨by simpa using hd, rfl⟩⟩

theorem setup_ok {parse : String → Option Query} {compose : Query → String}
    {pa : Bool} {m : List (String × ScriptObject)} {o0 o' : ScriptObject}
    {m' : List (String × ScriptObject)}
    (h : ScriptObject.setup parse compose pa m o0 = Except.ok (o', m')) :
    ∃ q0, parse o0.query = some q0 ∧
      setupDeleteStep parse compose pa m (setupNormalizedObject compose o0 q0) =
        Except.ok (o', m') := by
  unfold ScriptObject.setup at h
  rw [initStep_query] at h
  cases hq : parse o0.query with
  | none => rw [hq] at h; cases h
  | some q0 => rw [hq] at h; exact ⟨q0, rfl, h⟩

theorem setup_ok_inversion {parse : String → Option Query} {compose : Query → String}
    {pa : Bool} {m : List (String × ScriptObject)} {o0 o' : ScriptObject}
    {m' : List (String × ScriptObject)}
    (h : ScriptObject.setup parse compose pa m o0 = Except.ok (o', m')) :
    ∃ q0, parse o0.query = some q0 ∧ m' = jsMapSet m o'.name o' ∧
      (((setupNormalizedObject compose o0 q0).deleteOldData = false ∧
          o' = setupNormalizedObject compose o0 q0) ∨
       ((setupNormalizedObject compose o0 q0).deleteOldData = true ∧
          ∃ dq0, deleteQueryBase parse (setupNormalizedObject compose o0 q0) = some dq0 ∧
            o' = applyDeleteQuery compose pa (setupNormalizedObject compose o0 q0) dq0)) := by
  obtain ⟨q0, hq, hstep⟩ := setup_ok h
  obtain ⟨hm, hcase⟩ := setupDeleteStep_ok hstep
  exact ⟨q0, hq, hm, hcase⟩

theorem setup_ok_core {parse : String → Option Query} {compose : Query → String}
    {pa : Bool} {m : List (String × ScriptObject)} {o0 o' : ScriptObject}
    {m' : List (String × ScriptObject)}
    (h : ScriptObject.setup parse compose pa m o0 = Except.ok (o', m')) :
    ∃ q0, parse o0.query = some q0 ∧
      o'.parsedQuery = some (normalizeParsedQuery
        (decide (fixOperationValue o0.operation = OperationValue.op OPERATION.Delete)) q0) ∧
      o'.name = q0.sObject ∧
      o'.operation = fixOperationValue o0.operation ∧
      o'.externalId = o0.initStep.externalId ∧
      o'.deleteOldData = (o0.deleteOldData ||
        decide (fixOperationValue o0.operation = OperationValue.op OPERATION.Delete)) ∧
      m' = jsMapSet m o'.name o' := by
  obtain ⟨q0, hq, hm, hcase⟩ := setup_ok_inversion h
  refine ⟨q0, hq, ?_, ?_, ?_, ?_, ?_, hm⟩ <;>
    rcases hcase with ⟨_, ho⟩ | ⟨_, dq0, _, ho⟩ <;> subst ho
  · rw [sno_parsedQuery, initStep_operation]
  · rw [applyDeleteQuery_parsedQuery, sno_parsedQuery, initStep_operation]
  · rw [sno_name, normalizeParsedQuery_sObject]
  · rw [applyDeleteQuery_name, sno_name, normalizeParsedQuery_sObject]
  · exact sno_operation compose o0 q0
  · rw [applyDeleteQuery_operation]; exact sno_operation compose o0 q0
  · exact sno_externalId compose o0 q0
  · rw [applyDeleteQuery_externalId]; exact sno_externalId compose o0 q0
  · exact sno_deleteOldData compose o0 q0
  · rw [applyDeleteQuery_deleteOldData]; exact sno_deleteOldData compose o0 q0

/-! Concrete oracles and entries used by the witnesses. -/

/-- Sample parse oracle for concrete runs: a finite table of query texts with
their ASTs; every other text fails to parse.  The composed texts produced by
sampleCompose parse back to the AST they came from, mirroring the round-trip
contract of the external library. -/
def sampleParse : String → Option Query := fun s =>
  if s = "SELECT Name FROM Account" then
    some (Query.mk [SOQLField.mk "Name"] "Account" none none none)
  else if s = "SELECT RecordTypeId FROM Account" then
    some (Query.mk [SOQLField.mk "RecordTypeId"] "Account" none none none)
  else if s = "SELECT Id FROM RecordType" then
    some (Query.mk [SOQLField.mk "Id"] "RecordType" none none none)
  else if s = "SELECT Name FROM Contact" then
    some (Query.mk [SOQLField.mk "Name"] "Contact" none none none)
  else if s = "composed:Contact" then
    some (Query.mk [SOQLField.mk "Name"] "Contact" none none none)
  else if s = "composed:Account" then
    some (Query.mk [SOQLField.mk "Name"] "Account" none none none)
  else none

/-- Sample compose oracle: a distinctive text derived from the target entity,
kept in the sampleParse table so recomposed queries can be re-parsed. -/
def sampleCompose : Query → String := fun q => "composed:" ++ q.sObject

/-- Update entry on Account used by the C1 witness. -/
def c1entry : ScriptObject :=
  { (default : ScriptObject) with
    query := "SELECT Name FROM Account", operation := OperationValue.op OPERATION.Update }

/-- Delete entry (operation supplied as text) on Contact used by the C2 witness. -/
def c2entry : ScriptObject :=
  { (default : ScriptObject) with
    query := "SELECT Name FROM Contact", operation := OperationValue.str "Delete" }

/-- Insert entry of the worked example of the spec, used by C3. -/
def c3entry : ScriptObject :=
  { (default : ScriptObject) with
    name := "Account", query := "SELECT Name FROM Account",
    operation := OperationValue.op OPERATION.Insert }

/-- Insert entry with a textual operation and a user-supplied external id,
used by the C3 witness. -/
def c3textEntry : ScriptObject :=
  { (default : ScriptObject) with
    query := "SELECT Name FROM Account", operation := OperationValue.str "Insert",
    externalId := "MyExternalField" }

/-- C1: for every object entry whose primary query parses successfully, after
ScriptObject.setup completes the primary query field list contains the record
identifier field Id; and when the original query did not already list Id (and
the operation is not Delete, where the list is replaced wholesale), Id is
appended at the end of the de-duplicated field list. -/
theorem c1_id_in_primary_query
    (parse : String → Option Query) (compose : Query → String) (pa : Bool)
    (m : List (String × ScriptObject)) (o0 o' : ScriptObject) (m' : List (String × ScriptObject))
    (h : ScriptObject.setup parse compose pa m o0 = Except.ok (o', m')) :
    (∃ q, o'.parsedQuery = some q ∧ "Id" ∈ q.fields.map (fun f => f.field)) ∧
    (∀ q0, parse o0.query = some q0 →
      "Id" ∉ q0.fields.map (fun f => f.field) →
      fixOperationValue o0.operation ≠ OperationValue.op OPERATION.Delete →
      ∃ q, o'.parsedQuery = some q ∧
        q.fields = distinctFields q0.fields ++ [getComposedField "Id"]) := by
  obtain ⟨q0, hq, hpq, hname, hopn, hext, hdel, hm⟩ := setup_ok_core h
  constructor
  · exact ⟨_, hpq, normalizeParsedQuery_id_mem _ _⟩
  · intro q1 hq1 hnot hne
    rw [hq] at hq1
    injection hq1 with hq1
    subst hq1
    refine ⟨_, hpq, ?_⟩
    rw [show decide (fixOperationValue o0.operation = OperationValue.op OPERATION.Delete) = false
      by simp [hne]]
    exact normalizeParsedQuery_append q0 hnot

/-- C1 witness: the C1 theorem applied to a concrete successful setup run. -/
theorem c1_witness :
    ∃ o' m', ScriptObject.setup sampleParse sampleCompose false [] c1entry = Except.ok (o', m') ∧
      ((∃ q, o'.parsedQuery = some q ∧ "Id" ∈ q.fields.map (fun f => f.field)) ∧
       (∀ q0, sampleParse c1entry.query = some q0 →
         "Id" ∉ q0.fields.map (fun f => f.field) →
         fixOperationValue c1entry.operation ≠ OperationValue.op OPERATION.Delete →
         ∃ q, o'.parsedQuery = some q ∧
           q.fields = distinctFields q0.fields ++ [getComposedField "Id"])) := by
  exact ⟨_, _, rfl, c1_id_in_primary_query sampleParse sampleCompose false [] c1entry _ _ rfl⟩

/-- C2: for every object entry with the Delete operation (supplied as enum or
text) that compiles successfully, the primary query field list is exactly the
single Id field and deleteOldData is forced to true. -/
theorem c2_delete_identifier_only
    (parse : String → Option Query) (compose : Query → String) (pa : Bool)
    (m : List (String × ScriptObject)) (o0 o' : ScriptObject) (m' : List (String × ScriptObject))
    (hop : fixOperationValue o0.operation = OperationValue.op OPERATION.Delete)
    (h : ScriptObject.setup parse compose pa m o0 = Except.ok (o', m')) :
    (∃ q, o'.parsedQuery = some q ∧ q.fields = [getComposedField "Id"]) ∧
    o'.deleteOldData = true := by
  obtain ⟨q0, hq, hpq, hname, hopn, hext, hdel, hm⟩ := setup_ok_core h
  constructor
  · refine ⟨_, hpq, ?_⟩
    rw [show decide (fixOperationValue o0.operation = OperationValue.op OPERATION.Delete) = true
      by simp [hop]]
    exact normalizeParsedQuery_delete_fields q0
  · rw [hdel]
    simp [hop]

/-- C2 witness: the C2 theorem applied to a concrete successful setup run of a
Delete entry whose operation arrived as text. -/
theorem c2_witness :
    ∃ o' m', ScriptObject.setup sampleParse sampleCompose false [] c2entry = Except.ok (o', m') ∧
      ((∃ q, o'.parsedQuery = some q ∧ q.fields = [getComposedField "Id"]) ∧
       o'.deleteOldData = true) := by
  exact ⟨_, _, rfl, c2_delete_identifier_only sampleParse sampleCompose false [] c2entry _ _ rfl rfl⟩

/-- C3: for every object entry with the Insert operation, supplied as enum or
as text, after ScriptObject.setup the external id equals Id regardless of the
user-supplied external id; and the worked example on Account compiles to a
plan with fields Name then Id, external id Id and operation Insert. -/
theorem c3_insert_external_id :
    (∀ (parse : String → Option Query) (compose : Query → String) (pa : Bool)
        (m : List (String × ScriptObject)) (o0 o' : ScriptObject)
        (m' : List (String × ScriptObject)),
      fixOperationValue o0.operation = OperationValue.op OPERATION.Insert →
      ScriptObject.setup parse compose pa m o0 = Except.ok (o', m') →
      o'.externalId = "Id") ∧
    (∃ o' m', ScriptObject.setup sampleParse sampleCompose false [] c3entry = Except.ok (o', m') ∧
      o'.fieldsInQuery = ["Name", "Id"] ∧ o'.externalId = "Id" ∧
      o'.operation = OperationValue.op OPERATION.Insert ∧ o'.name = "Account") := by
  constructor
  · intro parse compose pa m o0 o' m' hop h
    obtain ⟨q0, hq, hpq, hname, hopn, hext, hdel, hm⟩ := setup_ok_core h
    rw [hext, initStep_externalId_insert o0 hop]
  · exact ⟨_, _, rfl, rfl, rfl, rfl, rfl⟩

/-- C3 witness: the general part of the C3 theorem applied to a concrete
Insert entry whose operation arrived as text and whose user-supplied external
id differs from Id. -/
theorem c3_witness :
    fixOperationValue c3textEntry.operation = OperationValue.op OPERATION.Insert ∧
    c3textEntry.externalId = "MyExternalField" ∧
    ∃ o' m', ScriptObject.setup sampleParse sampleCompose false [] c3textEntry = Except.ok (o', m') ∧
      o'.externalId = "Id" := by
  refine ⟨rfl, rfl, _, _, rfl, ?_⟩
  exact c3_insert_external_id.1 sampleParse sampleCompose false [] c3textEntry _ _ rfl rfl

theorem deriveDeleteQuery_fields (pa : Bool) (n : String) (dq0 : Query) :
    (deriveDeleteQuery pa n dq0).fields = [getComposedField "Id"] := by
  simp only [deriveDeleteQuery]
  split <;> rfl

theorem deriveDeleteQuery_where_pa (n : String) (dq0 : Query) (hn : n = "Contact") :
    (deriveDeleteQuery true n dq0).whereClause =
      some (composeWhereClause dq0.whereClause "IsPersonAccount" ["false"] "=" "BOOLEAN") := by
  subst hn
  simp [deriveDeleteQuery]

theorem deriveDeleteQuery_where_other (pa : Bool) (n : String) (dq0 : Query)
    (h : pa = false ∨ n ≠ "Contact") :
    (deriveDeleteQuery pa n dq0).whereClause = dq0.whereClause := by
  rcases h with h | h
  · subst h
    simp [deriveDeleteQuery]
  · simp [deriveDeleteQuery, h]

theorem setupDeleteStep_error (parse : String → Option Query) (compose : Query → String)
    (pa : Bool) (m : List (String × ScriptObject)) (o2 : ScriptObject)
    (hd : o2.deleteOldData = true) (hb : deleteQueryBase parse o2 = none) :
    setupDeleteStep parse compose pa m o2 =
      Except.error (SfdmuError.malformedDeleteQuery o2.name o2.deleteQuery) := by
  unfold setupDeleteStep
  rw [if_pos hd, hb]

/-- Delete entry on Contact (operation supplied as text) used by the C6
witness, compiled against a person-account enabled source. -/
def c6entry : ScriptObject :=
  { (default : ScriptObject) with
    query := "SELECT Name FROM Contact", operation := OperationValue.str "Delete" }

/-- C6: for every plan with deleteOldData that compiles successfully a
compiled delete query exists with field list exactly Id, based on the
explicit delete query when one was supplied and otherwise on the
already-normalized primary query text; the person-account predicate is
conjoined exactly when the source capability is enabled and the entity is
Contact; and a base parse failure raises the malformed-delete-query error
carrying the entity name and the raw delete-query text. -/
theorem c6_delete_query_derivation :
    (∀ (parse : String → Option Query) (compose : Query → String) (pa : Bool)
        (m : List (String × ScriptObject)) (o0 o' : ScriptObject)
        (m' : List (String × ScriptObject)),
      ScriptObject.setup parse compose pa m o0 = Except.ok (o', m') →
      o'.deleteOldData = true →
      ∃ dq0,
        (if o0.deleteQuery ≠ "" then parse o0.deleteQuery else parse o'.query) = some dq0 ∧
        o'.parsedDeleteQuery = some (deriveDeleteQuery pa o'.name dq0) ∧
        (deriveDeleteQuery pa o'.name dq0).fields = [getComposedField "Id"] ∧
        (pa = true → o'.name = "Contact" →
          (deriveDeleteQuery pa o'.name dq0).whereClause =
            some (composeWhereClause dq0.whereClause "IsPersonAccount" ["false"] "=" "BOOLEAN")) ∧
        (pa = false ∨ o'.name ≠ "Contact" →
          (deriveDeleteQuery pa o'.name dq0).whereClause = dq0.whereClause)) ∧
    (∀ (parse : String → Option Query) (compose : Query → String) (pa : Bool)
        (m : List (String × ScriptObject)) (o0 : ScriptObject) (q0 : Query),
      parse o0.query = some q0 →
      (o0.deleteOldData ||
        decide (fixOperationValue o0.operation = OperationValue.op OPERATION.Delete)) = true →
      deleteQueryBase parse (setupNormalizedObject compose o0 q0) = none →
      ScriptObject.setup parse compose pa m o0 =
        Except.error (SfdmuError.malformedDeleteQuery q0.sObject o0.deleteQuery)) := by
  constructor
  · intro parse compose pa m o0 o' m' h hdel
    obtain ⟨q0, hq, hm, hcase⟩ := setup_ok_inversion h
    rcases hcase with ⟨hd, ho⟩ | ⟨hd, dq0, hb, ho⟩
    · exfalso
      rw [ho] at hdel
      rw [hdel] at hd
      cases hd
    · refine ⟨dq0, ?_, ?_, deriveDeleteQuery_fields pa o'.name dq0, ?_, ?_⟩
      · rw [← hb]
        subst ho
        simp only [deleteQueryBase, applyDeleteQuery_query, sno_deleteQuery]
      · subst ho
        rfl
      · intro hpa hn
        subst hpa
        exact deriveDeleteQuery_where_pa o'.name dq0 hn
      · intro hother
        exact deriveDeleteQuery_where_other pa o'.name dq0 hother
  · intro parse compose pa m o0 q0 hq hdel hbase
    unfold ScriptObject.setup
    rw [initStep_query, hq]
    show setupDeleteStep parse compose pa m (setupNormalizedObject compose o0 q0) = _
    have h1 : (setupNormalizedObject compose o0 q0).name = q0.sObject := by
      rw [sno_name, normalizeParsedQuery_sObject]
    have h2 : (setupNormalizedObject compose o0 q0).deleteQuery = o0.deleteQuery :=
      sno_deleteQuery compose o0 q0
    have h3 : (setupNormalizedObject compose o0 q0).deleteOldData = true := by
      rw [sno_deleteOldData]
      exact hdel
    rw [setupDeleteStep_error parse compose pa m _ h3 hbase, h1, h2]

/-- C6 witness: the success part of the C6 theorem applied to a concrete
Delete run on Contact against a person-account enabled source. -/
theorem c6_witness :
    ∃ o' m', ScriptObject.setup sampleParse sampleCompose true [] c6entry = Except.ok (o', m') ∧
      ∃ dq0,
        (if c6entry.deleteQuery ≠ "" then sampleParse c6entry.deleteQuery
         else sampleParse o'.query) = some dq0 ∧
        o'.parsedDeleteQuery = some (deriveDeleteQuery true o'.name dq0) ∧
        (deriveDeleteQuery true o'.name dq0).fields = [getComposedField "Id"] ∧
        (true = true → o'.name = "Contact" →
          (deriveDeleteQuery true o'.name dq0).whereClause =
            some (composeWhereClause dq0.whereClause "IsPersonAccount" ["false"] "=" "BOOLEAN")) ∧
        (true = false ∨ o'.name ≠ "Contact" →
          (deriveDeleteQuery true o'.name dq0).whereClause = dq0.whereClause) := by
  refine ⟨_, _, rfl, ?_⟩
  exact c6_delete_query_derivation.1 sampleParse sampleCompose true [] c6entry _ _ rfl rfl

/-- C9: after a successful setup the entity name equals the target-entity
clause of the parsed primary query, the plan is registered in the map under
that name, and when a second setup resolves to the same entity name its
registration overwrites the first one. -/
theorem c9_entity_name_and_registration
    (parse : String → Option Query) (compose : Query → String) (pa : Bool)
    (m : List (String × ScriptObject)) (o1 o1' : ScriptObject)
    (m1 : List (String × ScriptObject)) (q1 : Query) (o2 o2' : ScriptObject)
    (m2 : List (String × ScriptObject))
    (h1 : ScriptObject.setup parse compose pa m o1 = Except.ok (o1', m1))
    (hq : parse o1.query = some q1) :
    (o1'.name = q1.sObject ∧ jsMapGet m1 o1'.name = some o1') ∧
    (ScriptObject.setup parse compose pa m1 o2 = Except.ok (o2', m2) → o2'.name = o1'.name →
      jsMapGet m2 o1'.name = some o2') := by
  obtain ⟨q0, hq0, hpq, hname, hopn, hext, hdel, hm⟩ := setup_ok_core h1
  rw [hq0] at hq
  injection hq with hq
  subst hq
  constructor
  · refine ⟨hname, ?_⟩
    rw [hm]
    exact jsMapGet_jsMapSet_self m o1'.name o1'
  · intro h2 hnn
    obtain ⟨q2, hq2, hpq2, hname2, hopn2, hext2, hdel2, hm2⟩ := setup_ok_core h2
    rw [hm2, ← hnn]
    exact jsMapGet_jsMapSet_self m1 o2'.name o2'

/-- C9 witness: the C9 theorem applied to two concrete setups that both
resolve to the Account entity, sharing one map. -/
theorem c9_witness :
    ∃ o1' m1, ScriptObject.setup sampleParse sampleCompose false [] c1entry = Except.ok (o1', m1) ∧
      ∃ o2' m2, ScriptObject.setup sampleParse sampleCompose false m1 c3entry = Except.ok (o2', m2) ∧
        (o1'.name = "Account" ∧ jsMapGet m1 o1'.name = some o1') ∧
        jsMapGet m2 o1'.name = some o2' := by
  refine ⟨_, _, rfl, _, _, rfl, ?_, ?_⟩
  · exact (c9_entity_name_and_registration sampleParse sampleCompose false [] c1entry _ _
      (Query.mk [SOQLField.mk "Name"] "Account" none none none) c3entry default [] rfl rfl).1
  · exact (c9_entity_name_and_registration sampleParse sampleCompose false [] c1entry _ _
      (Query.mk [SOQLField.mk "Name"] "Account" none none none) c3entry _ _ rfl rfl).2 rfl rfl

/-- fieldsToUpdateSpec restates the wording of claim C8 over the same data:
the queried fields whose descriptors are present and non read-only in both
the source and the target describe maps, empty when the operation is
Readonly or either map is unpopulated.  It is written from the claim, not
from the source, to be compared with ScriptObject.fieldsToUpdate. -/
def fieldsToUpdateSpec (o : ScriptObject) : List String :=
  match o.parsedQuery with
  | none => []
  | some q =>
    if o.operation = OperationValue.op OPERATION.Readonly ∨ o.sourceFieldsMap.length = 0 ∨
        o.targetFieldsMap.length = 0 then []
    else
      (q.fields.map (fun f => f.field)).filter (fun n =>
        match jsMapGet o.sourceFieldsMap n, jsMapGet o.targetFieldsMap n with
        | some ds, some dt => !ds.isReadonly && !dt.isReadonly
        | _, _ => false)

/-- Field descriptor that is writable (creatable, not formula, not auto). -/
def writableField : SFieldDescribe := { (default : SFieldDescribe) with name := "F", creatable := true }

/-- Field descriptor that is read only because it is not creatable. -/
def readonlyField : SFieldDescribe := { (default : SFieldDescribe) with name := "F", creatable := false }

/-- Plan whose field F is writable at the source but read only at the target,
separating the source code from the wording of claim C8. -/
def c8cex : ScriptObject :=
  { (default : ScriptObject) with
    parsedQuery := some (Query.mk [SOQLField.mk "F"] "X" none none none)
    operation := OperationValue.op OPERATION.Update
    sourceFieldsMap := [("F", writableField)]
    targetFieldsMap := [("F", readonlyField)] }

/-- C8 counterexample: on a plan whose queried field is read only in the
target describe map but writable in the source one, fieldsToUpdate keeps the
field, while the claim (descriptors non read-only in both maps) excludes it:
the getter consults only the source descriptor for the read-only test. -/
theorem c8_counterexample :
    c8cex.fieldsToUpdate = ["F"] ∧
    (jsMapGet c8cex.targetFieldsMap "F").map SFieldDescribe.isReadonly = some true ∧
    fieldsToUpdateSpec c8cex = [] ∧
    c8cex.fieldsToUpdate ≠ fieldsToUpdateSpec c8cex := by
  refine ⟨rfl, rfl, rfl, by decide⟩

theorem fieldsToUpdate_pointwise (tgt src : List (String × SFieldDescribe)) (l : List SOQLField)
    (hne : ∀ f ∈ l, f.field ≠ "") :
    ((l.map (fun x =>
        match jsMapGet tgt x.field, jsMapGet src x.field with
        | some _, some d => if d.isReadonly then none else some x.field
        | _, _ => none)).filter optStrTruthy).filterMap id =
    (l.map (fun f => f.field)).filter (fun n =>
        (jsMapGet tgt n).isSome &&
        (match jsMapGet src n with
         | some d => !d.isReadonly
         | none => false)) := by
  induction l with
  | nil => rfl
  | cons f fs ih =>
    have hf : f.field ≠ "" := hne f (List.mem_cons_self f fs)
    have ih1 := ih (fun g hg => hne g (List.mem_cons_of_mem f hg))
    simp only [List.map_cons, List.filter_cons]
    cases ht : jsMapGet tgt f.field with
    | none => simpa [optStrTruthy, ht] using ih1
    | some dt =>
      cases hs : jsMapGet src f.field with
      | none => simpa [optStrTruthy, hs, ht] using ih1
      | some ds =>
        by_cases hr : ds.isReadonly = true
        · simpa [optStrTruthy, hs, ht, hr] using ih1
        · simpa [optStrTruthy, hs, ht, hr, hf] using ih1

/-- C8 amended: fieldsToUpdate equals the queried fields whose descriptors
are present in both describe maps and whose source descriptor is not read
only; the read-only flag of the target descriptor is not consulted.  The
list is empty when the operation is Readonly or the source map is
unpopulated, and also (field by field) when the target map is unpopulated,
because no field then passes the presence test. -/
theorem c8_fields_to_update_amended (o : ScriptObject) (q : Query)
    (hq : o.parsedQuery = some q) :
    (o.operation = OperationValue.op OPERATION.Readonly ∨ o.sourceFieldsMap = [] →
      o.fieldsToUpdate = []) ∧
    (o.targetFieldsMap = [] → o.fieldsToUpdate = []) ∧
    ((∀ f ∈ q.fields, f.field ≠ "") →
      o.fieldsToUpdate = if o.operation = OperationValue.op OPERATION.Readonly ∨
          o.sourceFieldsMap = [] then []
        else (q.fields.map (fun f => f.field)).filter (fun n =>
          (jsMapGet o.targetFieldsMap n).isSome &&
          (match jsMapGet o.sourceFieldsMap n with
           | some d => !d.isReadonly
           | none => false))) := by
  refine ⟨?_, ?_, ?_⟩
  · intro h
    have hc : o.sourceFieldsMap.length = 0 ∨ o.operation = OperationValue.op OPERATION.Readonly := by
      rcases h with h | h
      · exact Or.inr h
      · exact Or.inl (by rw [h]; rfl)
    simp only [ScriptObject.fieldsToUpdate, hq]
    rw [if_pos hc]
  · intro ht
    simp only [ScriptObject.fieldsToUpdate, hq]
    split
    · rfl
    · rw [ht]
      simp [optStrTruthy, jsMapGet_nil]
  · intro hne
    by_cases hc : o.sourceFieldsMap.length = 0 ∨ o.operation = OperationValue.op OPERATION.Readonly
    · rw [if_pos ?side]
      case side =>
        rcases hc with hc | hc
        · exact Or.inr (List.length_eq_zero.mp hc)
        · exact Or.inl hc
      simp only [ScriptObject.fieldsToUpdate, hq]
      rw [if_pos hc]
    · rw [if_neg ?side2]
      case side2 =>
        intro hcon
        apply hc
        rcases hcon with hcon | hcon
        · exact Or.inr hcon
        · exact Or.inl (by rw [hcon]; rfl)
      simp only [ScriptObject.fieldsToUpdate, hq]
      rw [if_neg hc]
      exact fieldsToUpdate_pointwise o.targetFieldsMap o.sourceFieldsMap q.fields hne

/-- C8 witness: the amended C8 theorem applied to the concrete plan, with the
characterization evaluated on it. -/
theorem c8_witness :
    c8cex.fieldsToUpdate =
      (if c8cex.operation = OperationValue.op OPERATION.Readonly ∨ c8cex.sourceFieldsMap = []
       then []
       else ((Query.mk [SOQLField.mk "F"] "X" none none none).fields.map (fun f => f.field)).filter
         (fun n => (jsMapGet c8cex.targetFieldsMap n).isSome &&
           (match jsMapGet c8cex.sourceFieldsMap n with
            | some d => !d.isReadonly
            | none => false))) ∧
    c8cex.fieldsToUpdate = ["F"] := by
  refine ⟨(c8_fields_to_update_amended c8cex (Query.mk [SOQLField.mk "F"] "X" none none none)
    rfl).2.2 ?_, rfl⟩
  intro f hf
  simp only [List.mem_singleton] at hf
  subst hf
  decide

theorem connectStep_ok_name (display : String) (o o1 : ScriptOrg)
    (h : connectStep display o = Except.ok o1) : o1.name = o.name := by
  unfold connectStep at h
  split at h
  · cases h; rfl
  · split at h
    · cases h
    · split at h
      · cases h; rfl
      · cases h

theorem connectStep_ok_media (display : String) (o o1 : ScriptOrg)
    (h : connectStep display o = Except.ok o1) : o1.media = o.media := by
  unfold connectStep at h
  split at h
  · cases h; rfl
  · split at h
    · cases h
    · split at h
      · cases h; rfl
      · cases h

/-- C7: ScriptOrg.setupAsync is a no-op for file media; for a live endpoint
that is not yet connected, a parsed credential response without a connected
indicator fails with the connect-failed CommandInitializationError; after a
successful connect step a failing primary probe fails with the
access-expired error naming the endpoint; and when the primary probe
succeeds, setup succeeds and isPersonAccountEnabled records exactly the
outcome of the person-account probe, a failing person-account probe never
failing the setup. -/
theorem c7_org_setup :
    (∀ (display : String) (probe : String → Bool) (o : ScriptOrg),
      o.isFileMedia = true → ScriptOrg.setupAsync display probe o = Except.ok o) ∧
    (∀ (display : String) (probe : String → Bool) (o : ScriptOrg) (info : OrgInfo),
      o.isFileMedia = false → o.isConnected = false →
      parseForceOrgDisplayResult display = some info → info.isConnected = false →
      ScriptOrg.setupAsync display probe o = Except.error (SfdmuError.orgConnectFailed o.name) ∧
      (SfdmuError.orgConnectFailed o.name).isCommandInitializationError = true) ∧
    (∀ (display : String) (probe : String → Bool) (o o1 : ScriptOrg),
      o.isFileMedia = false → connectStep display o = Except.ok o1 →
      probe "SELECT Id FROM Account LIMIT 1" = false →
      ScriptOrg.setupAsync display probe o =
        Except.error (SfdmuError.accessToOrgExpired o.name)) ∧
    (∀ (display : String) (probe : String → Bool) (o o1 : ScriptOrg),
      o.isFileMedia = false → connectStep display o = Except.ok o1 →
      probe "SELECT Id FROM Account LIMIT 1" = true →
      ScriptOrg.setupAsync display probe o =
        Except.ok { o1 with
          isPersonAccountEnabled := probe "SELECT IsPersonAccount FROM Account LIMIT 1" }) := by
  refine ⟨?_, ?_, ?_, ?_⟩
  · intro display probe o hfm
    unfold ScriptOrg.setupAsync
    rw [if_pos hfm]
  · intro display probe o info hfm hconn hparse hic
    have hcs : connectStep display o = Except.error (SfdmuError.orgConnectFailed o.name) := by
      unfold connectStep
      rw [if_neg (by simp [hconn])]
      rw [hparse]
      show (if info.isConnected = true then _ else _) = _
      rw [if_neg (by simp [hic])]
    constructor
    · unfold ScriptOrg.setupAsync
      rw [if_neg (by simp [hfm]), hcs]
    · rfl
  · intro display probe o o1 hfm hcs hprobe
    have hfm1 : o1.isFileMedia = false := by
      unfold ScriptOrg.isFileMedia
      rw [connectStep_ok_media display o o1 hcs]
      exact hfm
    unfold ScriptOrg.setupAsync
    rw [if_neg (by simp [hfm]), hcs]
    show validateAccessTokenAsync probe o1 = _
    unfold validateAccessTokenAsync
    rw [if_neg (by simp [hfm1]), if_pos (by simp [hprobe])]
    rw [connectStep_ok_name display o o1 hcs]
  · intro display probe o o1 hfm hcs hprobe
    have hfm1 : o1.isFileMedia = false := by
      unfold ScriptOrg.isFileMedia
      rw [connectStep_ok_media display o o1 hcs]
      exact hfm
    unfold ScriptOrg.setupAsync
    rw [if_neg (by simp [hfm]), hcs]
    show validateAccessTokenAsync probe o1 = _
    unfold validateAccessTokenAsync
    rw [if_neg (by simp [hfm1]), if_neg (by simp [hprobe])]

/-- File-media org used by the C7 witness. -/
def c7fileOrg : ScriptOrg :=
  { (default : ScriptOrg) with name := "csvfile", media := DATA_MEDIA_TYPE.File }

/-- Live, unconnected org used by the C7 witness. -/
def c7liveOrg : ScriptOrg :=
  { (default : ScriptOrg) with name := "src", media := DATA_MEDIA_TYPE.Org }

/-- Live, already connected org used by the C7 witness. -/
def c7connOrg : ScriptOrg :=
  { (default : ScriptOrg) with name := "src", media := DATA_MEDIA_TYPE.Org, accessToken := "token" }

/-- C7 witness: the four parts of the C7 theorem applied to concrete orgs,
displays and probes. -/
theorem c7_witness :
    ScriptOrg.setupAsync "ignored" (fun _ => true) c7fileOrg = Except.ok c7fileOrg ∧
    ScriptOrg.setupAsync "Status Inactive" (fun _ => true) c7liveOrg =
      Except.error (SfdmuError.orgConnectFailed "src") ∧
    ScriptOrg.setupAsync "ignored" (fun _ => false) c7connOrg =
      Except.error (SfdmuError.accessToOrgExpired "src") ∧
    ScriptOrg.setupAsync "ignored" (fun q => decide (q = "SELECT Id FROM Account LIMIT 1")) c7connOrg =
      Except.ok { c7connOrg with isPersonAccountEnabled := false } := by
  refine ⟨c7_org_setup.1 "ignored" (fun _ => true) c7fileOrg rfl, ?_, ?_, ?_⟩
  · exact (c7_org_setup.2.1 "Status Inactive" (fun _ => true) c7liveOrg
      (OrgInfo.mk none none none (some "Inactive") none none none none) rfl rfl (by decide) rfl).1
  · exact c7_org_setup.2.2.1 "ignored" (fun _ => false) c7connOrg c7connOrg rfl rfl rfl
  · exact c7_org_setup.2.2.2 "ignored" (fun q => decide (q = "SELECT Id FROM Account LIMIT 1"))
      c7connOrg c7connOrg rfl rfl rfl

/-! Helper lemmas about the whole-script compilation pipeline. -/

theorem setupAsync_ok_inversion
    {parse : String → Option Query} {compose : Query → String}
    {sd td : String} {sp tp : String → Bool} {dl : List String}
    {su tu bp av : String} {s s' : Script}
    (h : Script.setupAsync parse compose sd td sp tp dl su tu bp av s = Except.ok s') :
    ∃ srcOrg tgtOrg objs2 m2,
      (s.objects.filter excludedFilter).isEmpty = false ∧
      ScriptOrg.setupAsync sd sp
        { s.findOrg su with name := su, isSource := true, media := mediaOf su } =
        Except.ok srcOrg ∧
      ScriptOrg.setupAsync td tp
        { s.findOrg tu with name := tu, media := mediaOf tu } = Except.ok tgtOrg ∧
      setupObjects parse compose srcOrg.isPersonAccountEnabled
        (s.objects.filter excludedFilter) s.objectsMap = Except.ok (objs2, m2) ∧
      injectRecordType parse compose srcOrg.isPersonAccountEnabled
        (objs2.filter (fun x => !decide (x.name ∈ dl))) m2 =
        Except.ok (s'.objects, s'.objectsMap) := by
  simp only [Script.setupAsync] at h
  split at h
  · cases h
  next hempty =>
    split at h
    · cases h
    next srcOrg hsrc =>
      split at h
      · cases h
      next tgtOrg htgt =>
        split at h
        · cases h
        next objs2 m2 hobjs =>
          split at h
          · cases h
          next objs4 m4 hinj =>
            cases h
            exact ⟨srcOrg, tgtOrg, objs2, m2, by simpa using hempty, hsrc, htgt, hobjs, hinj⟩

theorem setupObjects_map_isSome {parse : String → Option Query} {compose : Query → String}
    {pa : Bool} : ∀ (os : List ScriptObject) (m : List (String × ScriptObject))
    (os' : List ScriptObject) (m' : List (String × ScriptObject)) (k : String),
    setupObjects parse compose pa os m = Except.ok (os', m') →
    (jsMapGet m k).isSome = true → (jsMapGet m' k).isSome = true := by
  intro os
  induction os with
  | nil =>
    intro m os' m' k h hk
    cases h
    exact hk
  | cons o rest ih =>
    intro m os' m' k h hk
    unfold setupObjects at h
    split at h
    · cases h
    next o1 m1 hsetup =>
      split at h
      · cases h
      next rest1 m2 hrest =>
        cases h
        refine ih _ _ _ k hrest ?_
        obtain ⟨q0, _, _, _, _, _, _, hm1⟩ := setup_ok_core hsetup
        rw [hm1]
        exact jsMapGet_jsMapSet_isSome _ _ k _ hk

theorem setupObjects_registers {parse : String → Option Query} {compose : Query → String}
    {pa : Bool} : ∀ (os : List ScriptObject) (m : List (String × ScriptObject))
    (os' : List ScriptObject) (m' : List (String × ScriptObject))
    (o : ScriptObject) (q : Query),
    o ∈ os → parse o.query = some q →
    setupObjects parse compose pa os m = Except.ok (os', m') →
    (jsMapGet m' q.sObject).isSome = true := by
  intro os
  induction os with
  | nil =>
    intro m os' m' o q hmem
    cases hmem
  | cons o0 rest ih =>
    intro m os' m' o q hmem hq h
    unfold setupObjects at h
    split at h
    · cases h
    next o1 m1 hsetup =>
      split at h
      · cases h
      next rest1 m2 hrest =>
        cases h
        rcases List.mem_cons.mp hmem with rfl | hmem2
        · obtain ⟨q0, hq0, _, hname, _, _, _, hm1⟩ := setup_ok_core hsetup
          rw [hq0] at hq
          injection hq with hq
          subst hq
          refine setupObjects_map_isSome _ _ _ _ _ hrest ?_
          rw [hm1, ← hname, jsMapGet_jsMapSet_self]
          rfl
        · exact ih _ _ _ o q hmem2 hq hrest

theorem injectRecordType_cases {parse : String → Option Query} {compose : Query → String}
    {pa : Bool} {objects : List ScriptObject} {m : List (String × ScriptObject)}
    {res : List ScriptObject × List (String × ScriptObject)}
    (h : injectRecordType parse compose pa objects m = Except.ok res) :
    (((objects.filter (fun x => x.hasRecordTypeIdField)).map (fun x => x.name)).isEmpty = true ∧
      res.1 = objects ∧ res.2 = m) ∨
    (((objects.filter (fun x => x.hasRecordTypeIdField)).map (fun x => x.name)).isEmpty = false ∧
      ∃ obj m1, ScriptObject.setup parse compose pa m recordTypeTemplate = Except.ok (obj, m1) ∧
        res.1 = objects ++ [recordTypeFinalize compose
          ((objects.filter (fun x => x.hasRecordTypeIdField)).map (fun x => x.name)) obj] ∧
        res.2 = jsMapSet m1 (recordTypeFinalize compose
          ((objects.filter (fun x => x.hasRecordTypeIdField)).map (fun x => x.name)) obj).name
          (recordTypeFinalize compose
            ((objects.filter (fun x => x.hasRecordTypeIdField)).map (fun x => x.name)) obj)) := by
  unfold injectRecordType at h
  split at h
  next hempty =>
    cases h
    exact Or.inl ⟨hempty, rfl, rfl⟩
  next hempty =>
    split at h
    · cases h
    next obj m1 hsetup =>
      cases h
      exact Or.inr ⟨by simpa using hempty, obj, m1, hsetup, rfl, rfl⟩

/-- Raw entry that is excluded and carries the operation as the text
Readonly, separating the filter of the source from the wording of claim C4. -/
def c4entry : ScriptObject :=
  { (default : ScriptObject) with
    query := "SELECT Name FROM Account", operation := OperationValue.str "Readonly",
    excluded := true }

/-- Reading of claim C4 for the operation value: the operation is Readonly
whether it was supplied as the enum member or as its textual name.  Written
from the claim, to be compared with the filter of the source. -/
def operationDenotesReadonly : OperationValue → Bool
  | OperationValue.op OPERATION.Readonly => true
  | OperationValue.str s => decide (s = "Readonly")
  | _ => false

/-- One-entry script around c4entry. -/
def c4script : Script := { (default : Script) with objects := [c4entry] }

/-- C4 counterexample: an excluded entry whose operation is Readonly supplied
as text is dropped by the exclusion filter (the loose equality compares the
raw text against the numeric enum member and fails), although the claim says
an excluded entry whose operation is Readonly survives; compiling the
one-entry script therefore fails with the no-objects error even though a
working parse oracle is supplied. -/
theorem c4_counterexample :
    c4entry.excluded = true ∧
    operationDenotesReadonly c4entry.operation = true ∧
    excludedFilter c4entry = false ∧
    Script.setupAsync sampleParse sampleCompose "" "" (fun _ => true) (fun _ => true) []
      "csvfile" "csvfile" "" "" c4script = Except.error SfdmuError.noObjectsDefined := by
  exact ⟨rfl, rfl, rfl, rfl⟩

/-- C4 amended: an object entry survives the exclusion filter exactly when it
is not marked excluded or its operation value is the Readonly enum member (an
operation supplied as text, even the text Readonly, does not protect the
entry, because the filter runs before text normalization); and whenever no
entry survives, Script.setupAsync fails with the no-objects error for every
choice of endpoint collaborators, hence before any endpoint setup is
attempted. -/
theorem c4_exclusion_filter_amended :
    (∀ o : ScriptObject, excludedFilter o = true ↔
      (o.excluded = false ∨ o.operation = OperationValue.op OPERATION.Readonly)) ∧
    (∀ (parse : String → Option Query) (compose : Query → String) (sd td : String)
        (sp tp : String → Bool) (dl : List String) (su tu bp av : String) (s : Script),
      s.objects.filter excludedFilter = [] →
      Script.setupAsync parse compose sd td sp tp dl su tu bp av s =
        Except.error SfdmuError.noObjectsDefined) := by
  constructor
  · intro o
    simp [excludedFilter]
  · intro parse compose sd td sp tp dl su tu bp av s hfil
    simp [Script.setupAsync, hfil]

/-- C4 witness: the amended C4 theorem applied to the concrete one-entry
script, with endpoint collaborators that would fail if they were consulted. -/
theorem c4_witness :
    (excludedFilter c4entry = true ↔
      (c4entry.excluded = false ∨ c4entry.operation = OperationValue.op OPERATION.Readonly)) ∧
    Script.setupAsync sampleParse sampleCompose "x" "y" (fun _ => false) (fun _ => false) []
      "src" "tgt" "" "" c4script = Except.error SfdmuError.noObjectsDefined := by
  refine ⟨c4_exclusion_filter_amended.1 c4entry, ?_⟩
  exact c4_exclusion_filter_amended.2 sampleParse sampleCompose "x" "y" (fun _ => false)
    (fun _ => false) [] "src" "tgt" "" "" c4script rfl

theorem applyDeleteQuery_isExtraObject (compose : Query → String) (pa : Bool)
    (o2 : ScriptObject) (dq0 : Query) :
    (applyDeleteQuery compose pa o2 dq0).isExtraObject = o2.isExtraObject := rfl

theorem applyDeleteQuery_allRecords (compose : Query → String) (pa : Bool)
    (o2 : ScriptObject) (dq0 : Query) :
    (applyDeleteQuery compose pa o2 dq0).allRecords = o2.allRecords := rfl

theorem setup_ok_flags {parse : String → Option Query} {compose : Query → String}
    {pa : Bool} {m : List (String × ScriptObject)} {o0 o' : ScriptObject}
    {m' : List (String × ScriptObject)}
    (h : ScriptObject.setup parse compose pa m o0 = Except.ok (o', m')) :
    o'.isExtraObject = o0.isExtraObject ∧ o'.allRecords = o0.allRecords := by
  obtain ⟨q0, hq, hm, hcase⟩ := setup_ok_inversion h
  rcases hcase with ⟨_, ho⟩ | ⟨_, dq0, _, ho⟩ <;> subst ho
  · exact ⟨sno_isExtraObject compose o0 q0, sno_allRecords compose o0 q0⟩
  · rw [applyDeleteQuery_isExtraObject, applyDeleteQuery_allRecords]
    exact ⟨sno_isExtraObject compose o0 q0, sno_allRecords compose o0 q0⟩

theorem recordTypeFinalize_name (compose : Query → String) (ns : List String)
    (obj : ScriptObject) : (recordTypeFinalize compose ns obj).name = obj.name := rfl

theorem recordTypeFinalize_operation (compose : Query → String) (ns : List String)
    (obj : ScriptObject) : (recordTypeFinalize compose ns obj).operation = obj.operation := rfl

theorem recordTypeFinalize_externalId (compose : Query → String) (ns : List String)
    (obj : ScriptObject) : (recordTypeFinalize compose ns obj).externalId = obj.externalId := rfl

theorem recordTypeFinalize_isExtraObject (compose : Query → String) (ns : List String)
    (obj : ScriptObject) :
    (recordTypeFinalize compose ns obj).isExtraObject = obj.isExtraObject := rfl

theorem recordTypeFinalize_allRecords (compose : Query → String) (ns : List String)
    (obj : ScriptObject) : (recordTypeFinalize compose ns obj).allRecords = obj.allRecords := rfl

theorem recordTypeFinalize_parsedQuery (compose : Query → String) (ns : List String)
    (obj : ScriptObject) :
    (recordTypeFinalize compose ns obj).parsedQuery =
      some { obj.parsedQuery.getD default with
        whereClause := some (composeWhereClause (obj.parsedQuery.getD default).whereClause
          "SobjectType" ns "IN" "STRING")
        orderBy := some (OrderByClause.mk "SobjectType" "ASC") } := rfl

/-- C10: when a surviving object entry resolves to an entity name on the
unsupported-entity denylist, the compiled plan is removed from the objects
sequence of the result, but its registration survives in objectsMap, so the
name-to-plan map can hold entity names absent from the objects list. -/
theorem c10_denylist_map_retention
    (parse : String → Option Query) (compose : Query → String)
    (sd td : String) (sp tp : String → Bool) (dl : List String)
    (su tu bp av : String) (s s' : Script) (o : ScriptObject) (q : Query)
    (hmem : o ∈ s.objects) (hkept : excludedFilter o = true)
    (hq : parse o.query = some q) (hdl : q.sObject ∈ dl)
    (hnrt : q.sObject ≠ "RecordType")
    (hrt : ∀ q1, parse "SELECT Id FROM RecordType" = some q1 → q1.sObject = "RecordType")
    (h : Script.setupAsync parse compose sd td sp tp dl su tu bp av s = Except.ok s') :
    (∀ x ∈ s'.objects, x.name ≠ q.sObject) ∧
    (jsMapGet s'.objectsMap q.sObject).isSome = true := by
  obtain ⟨srcOrg, tgtOrg, objs2, m2, hempty, hsrc, htgt, hobjs, hinj⟩ := setupAsync_ok_inversion h
  have hmem1 : o ∈ s.objects.filter excludedFilter := List.mem_filter.mpr ⟨hmem, hkept⟩
  have hm2 : (jsMapGet m2 q.sObject).isSome = true :=
    setupObjects_registers _ _ _ _ o q hmem1 hq hobjs
  have hfilmem : ∀ x ∈ objs2.filter (fun x => !decide (x.name ∈ dl)), x.name ≠ q.sObject := by
    intro x hx hcontra
    have h2 := (List.mem_filter.mp hx).2
    rw [hcontra] at h2
    simp [hdl] at h2
  rcases injectRecordType_cases hinj with ⟨_, h1, h2⟩ | ⟨_, obj, m1, hsetup, h1, h2⟩
  · replace h1 : s'.objects = _ := h1
    replace h2 : s'.objectsMap = _ := h2
    constructor
    · intro x hx
      rw [h1] at hx
      exact hfilmem x hx
    · rw [h2]
      exact hm2
  · replace h1 : s'.objects = _ := h1
    replace h2 : s'.objectsMap = _ := h2
    obtain ⟨q1, hq1, _, hname1, _, _, _, hm1⟩ := setup_ok_core hsetup
    have hobjname : obj.name = "RecordType" := by
      rw [hname1]
      exact hrt q1 hq1
    constructor
    · intro x hx
      rw [h1] at hx
      rcases List.mem_append.mp hx with hx | hx
      · exact hfilmem x hx
      · rw [List.mem_singleton] at hx
        subst hx
        rw [recordTypeFinalize_name, hobjname]
        exact fun hc => hnrt hc.symm
    · rw [h2]
      apply jsMapGet_jsMapSet_isSome
      rw [hm1]
      exact jsMapGet_jsMapSet_isSome _ _ _ _ hm2

/-- Update entry on Account used by the C10 witness. -/
def c10entry : ScriptObject :=
  { (default : ScriptObject) with
    query := "SELECT Name FROM Account", operation := OperationValue.op OPERATION.Update }

/-- One-entry script around c10entry. -/
def c10script : Script := { (default : Script) with objects := [c10entry] }

/-- C10 witness: the C10 theorem applied to a concrete run whose only entity
name is denylisted: the compiled objects list is empty while the map still
holds the entry. -/
theorem c10_witness :
    ∃ s', Script.setupAsync sampleParse sampleCompose "" "" (fun _ => true) (fun _ => true)
      ["Account"] "csvfile" "csvfile" "" "" c10script = Except.ok s' ∧
      (∀ x ∈ s'.objects, x.name ≠ "Account") ∧
      (jsMapGet s'.objectsMap "Account").isSome = true := by
  refine ⟨_, rfl, ?_⟩
  exact c10_denylist_map_retention sampleParse sampleCompose "" "" (fun _ => true) (fun _ => true)
    ["Account"] "csvfile" "csvfile" "" "" c10script _ c10entry
    (Query.mk [SOQLField.mk "Name"] "Account" none none none)
    (List.mem_singleton.mpr rfl) rfl rfl (List.mem_singleton.mpr rfl) (by decide)
    (fun q1 h1 => by
      rw [show sampleParse "SELECT Id FROM RecordType" =
        some (Query.mk [SOQLField.mk "Id"] "RecordType" none none none) from rfl] at h1
      injection h1 with h1
      rw [← h1])
    rfl

/-- Update entry referencing the RecordTypeId field, used by the C5 witness. -/
def c5entry : ScriptObject :=
  { (default : ScriptObject) with
    query := "SELECT RecordTypeId FROM Account", operation := OperationValue.op OPERATION.Update }

/-- One-entry script around c5entry. -/
def c5script : Script := { (default : Script) with objects := [c5entry] }

/-- C5: on every successful compilation, either no compiled plan references
the RecordTypeId field and the objects list is exactly the compiled plans, or
at least one does and exactly one extra RecordType plan is appended at the
end, no matter how many plans reference the field, with operation Readonly,
external id DeveloperName, isExtraObject and allRecords set, its where clause
restricting SobjectType to the names of the referencing plans and its
ordering SobjectType ascending. -/
theorem c5_record_type_injection
    (parse : String → Option Query) (compose : Query → String)
    (sd td : String) (sp tp : String → Bool) (dl : List String)
    (su tu bp av : String) (s s' : Script)
    (hrtp : parse "SELECT Id FROM RecordType" =
      some (Query.mk [SOQLField.mk "Id"] "RecordType" none none none))
    (h : Script.setupAsync parse compose sd td sp tp dl su tu bp av s = Except.ok s') :
    ∃ base : List ScriptObject,
      ((∀ x ∈ base, x.hasRecordTypeIdField = false) ∧ s'.objects = base) ∨
      ((∃ x ∈ base, x.hasRecordTypeIdField = true) ∧
       ∃ extra : ScriptObject,
         s'.objects = base ++ [extra] ∧
         extra.name = "RecordType" ∧
         extra.operation = OperationValue.op OPERATION.Readonly ∧
         extra.externalId = "DeveloperName" ∧
         extra.isExtraObject = true ∧
         extra.allRecords = true ∧
         ∃ pq, extra.parsedQuery = some pq ∧
           pq.fields = [getComposedField "Id"] ∧
           pq.whereClause = some (WhereClause.pred (Predicate.mk "SobjectType" "IN"
             ((base.filter (fun x => x.hasRecordTypeIdField)).map (fun x => x.name)) "STRING")) ∧
           pq.orderBy = some (OrderByClause.mk "SobjectType" "ASC")) := by
  obtain ⟨srcOrg, tgtOrg, objs2, m2, hempty, hsrc, htgt, hobjs, hinj⟩ := setupAsync_ok_inversion h
  refine ⟨objs2.filter (fun x => !decide (x.name ∈ dl)), ?_⟩
  rcases injectRecordType_cases hinj with ⟨hnil, h1, h2⟩ | ⟨hne, obj, m1, hsetup, h1, h2⟩
  · replace h1 : s'.objects = _ := h1
    left
    refine ⟨?_, h1⟩
    intro x hx
    have hfilnil : (objs2.filter (fun x => !decide (x.name ∈ dl))).filter
        (fun x => x.hasRecordTypeIdField) = [] :=
      List.map_eq_nil_iff.mp (List.isEmpty_iff.mp hnil)
    by_contra hcon
    have hxT : x.hasRecordTypeIdField = true := by
      cases hb : x.hasRecordTypeIdField
      · exact absurd hb hcon
      · rfl
    have hxmem : x ∈ (objs2.filter (fun x => !decide (x.name ∈ dl))).filter
        (fun x => x.hasRecordTypeIdField) :=
      List.mem_filter.mpr ⟨hx, hxT⟩
    rw [hfilnil] at hxmem
    cases hxmem
  · replace h1 : s'.objects = _ := h1
    right
    constructor
    · have hne2 : (objs2.filter (fun x => !decide (x.name ∈ dl))).filter
          (fun x => x.hasRecordTypeIdField) ≠ [] := by
        intro hc
        rw [hc] at hne
        simp at hne
      cases hfl : (objs2.filter (fun x => !decide (x.name ∈ dl))).filter
          (fun x => x.hasRecordTypeIdField) with
      | nil => exact absurd hfl hne2
      | cons y ys =>
        have hymem : y ∈ (objs2.filter (fun x => !decide (x.name ∈ dl))).filter
            (fun x => x.hasRecordTypeIdField) := by
          rw [hfl]
          exact List.mem_cons_self y ys
        obtain ⟨hmemy, hpy⟩ := List.mem_filter.mp hymem
        exact ⟨y, hmemy, hpy⟩
    · obtain ⟨q1, hq1, hpq1, hname1, hop1, hext1, hdel1, hm1⟩ := setup_ok_core hsetup
      have hq1eq : q1 = Query.mk [SOQLField.mk "Id"] "RecordType" none none none := by
        have hqq : parse "SELECT Id FROM RecordType" = some q1 := hq1
        rw [hrtp] at hqq
        injection hqq with hqq
        exact hqq.symm
      subst hq1eq
      have hobjpq : obj.parsedQuery =
          some (Query.mk [SOQLField.mk "Id"] "RecordType" none none none) := by
        rw [hpq1]
        rfl
      refine ⟨recordTypeFinalize compose _ obj, h1, ?_, ?_, ?_, ?_, ?_, ?_⟩
      · rw [recordTypeFinalize_name, hname1]
      · rw [recordTypeFinalize_operation, hop1]
        rfl
      · rw [recordTypeFinalize_externalId, hext1]
        rfl
      · rw [recordTypeFinalize_isExtraObject, (setup_ok_flags hsetup).1]
        rfl
      · rw [recordTypeFinalize_allRecords, (setup_ok_flags hsetup).2]
        rfl
      · refine ⟨Query.mk [SOQLField.mk "Id"] "RecordType"
          (some (WhereClause.pred (Predicate.mk "SobjectType" "IN"
            ((((objs2.filter (fun x => !decide (x.name ∈ dl))).filter
              (fun x => x.hasRecordTypeIdField)).map (fun x => x.name))) "STRING")))
          (some (OrderByClause.mk "SobjectType" "ASC")) none, ?_, rfl, rfl, rfl⟩
        rw [recordTypeFinalize_parsedQuery, hobjpq]
        rfl

/-- C5 witness: the C5 theorem applied to a concrete run with one entity that
references RecordTypeId. -/
theorem c5_witness :
    ∃ s', Script.setupAsync sampleParse sampleCompose "" "" (fun _ => true) (fun _ => true) []
      "csvfile" "csvfile" "" "" c5script = Except.ok s' ∧
    ∃ base : List ScriptObject,
      ((∀ x ∈ base, x.hasRecordTypeIdField = false) ∧ s'.objects = base) ∨
      ((∃ x ∈ base, x.hasRecordTypeIdField = true) ∧
       ∃ extra : ScriptObject,
         s'.objects = base ++ [extra] ∧
         extra.name = "RecordType" ∧
         extra.operation = OperationValue.op OPERATION.Readonly ∧
         extra.externalId = "DeveloperName" ∧
         extra.isExtraObject = true ∧
         extra.allRecords = true ∧
         ∃ pq, extra.parsedQuery = some pq ∧
           pq.fields = [getComposedField "Id"] ∧
           pq.whereClause = some (WhereClause.pred (Predicate.mk "SobjectType" "IN"
             ((base.filter (fun x => x.hasRecordTypeIdField)).map (fun x => x.name)) "STRING")) ∧
           pq.orderBy = some (OrderByClause.mk "SobjectType" "ASC")) := by
  refine ⟨_, rfl, ?_⟩
  exact c5_record_type_injection sampleParse sampleCompose "" "" (fun _ => true) (fun _ => true)
    [] "csvfile" "csvfile" "" "" c5script _ rfl rfl
